import Mathlib

/-!
Shallow embedding of the referral-graph engine of `src/bot.py`
(pandora-telegram-bot).

The backing store is a SQLite database with two relations:
  users(telegram_user_id PRIMARY KEY, sponsor_code NULLABLE,
        step1_confirmed, step2_warning_ack, progress_step,
        progress_visited_sharing, progress_shared_invite,
        progress_visited_member_tools)
  referrers(ref_code PRIMARY KEY, owner_telegram_id, step1_url, step2_url)

We model the two relations as lists of rows; SQL `SELECT ... WHERE k = ?`
with `fetchone` becomes `List.find?`, `UPDATE ... WHERE k = ?` becomes a
`List.map` that rewrites the matching rows, and `INSERT` appends.
Python truthiness of an optional string column (`if sponsor_code and not
existing:`) is `pyTruthy`: false exactly on `none` and `some ""`.
Python `int(x)` on the non-negative floats occurring here is floor, which
for the ratios in this file coincides with `Nat` division.
-/

namespace PandoraBot

/-- A row of the `users` relation. -/
structure UserRow where
  id : Nat
  sponsor_code : Option String
  step1_confirmed : Bool
  step2_warning_ack : Bool
  progress_step : Nat
  visited_sharing : Bool
  shared_invite : Bool
  visited_member_tools : Bool
deriving Repr, DecidableEq

/-- A row of the `referrers` relation. -/
structure RefRow where
  ref_code : String
  owner_id : Nat
  step1_url : String
  step2_url : String
deriving Repr, DecidableEq

/-- The whole persistent store (both relations). -/
structure Store where
  users : List UserRow
  referrers : List RefRow
deriving Repr, DecidableEq

/-- The empty database, as created by `db_init`. -/
def Store.empty : Store := { users := [], referrers := [] }

/-- Python str.upper(), over the character list (ASCII case mapping,
which covers every string occurring in this system). -/
def upperString (s : String) : String := ⟨s.data.map Char.toUpper⟩

/-- Python str.strip(): drop whitespace from both ends. -/
def stripString (s : String) : String :=
  ⟨(((s.data.dropWhile Char.isWhitespace).reverse).dropWhile Char.isWhitespace).reverse⟩

/-- Python truthiness of an optional string column: `None` and `""` are
falsy, every other string is truthy. -/
def pyTruthy : Option String → Bool
  | none => false
  | some s => !(s == "")

/-- SELECT * FROM users WHERE telegram_user_id = ? (fetchone). -/
def findUser (s : Store) (uid : Nat) : Option UserRow :=
  s.users.find? (fun u => u.id == uid)

/-- get_referrer_by_owner: SELECT ... FROM referrers WHERE owner_telegram_id = ?. -/
def getReferrerByOwner (s : Store) (uid : Nat) : Option RefRow :=
  s.referrers.find? (fun r => r.owner_id == uid)

/-- get_referrer_by_code: SELECT ... FROM referrers WHERE ref_code = ?. -/
def getReferrerByCode (s : Store) (code : String) : Option RefRow :=
  s.referrers.find? (fun r => r.ref_code == code)

/-- SELECT COUNT(*) FROM users WHERE sponsor_code = ?  (SQL `=` never
matches NULL, which the `Option` equality reproduces). -/
def teamSize (s : Store) (code : String) : Nat :=
  (s.users.filter (fun u => u.sponsor_code == some code)).length

/-- A fresh `users` row as written by the INSERT in `upsert_user`
(progress columns take their schema defaults). -/
def freshUserRow (uid : Nat) (sponsor : Option String) : UserRow :=
  { id := uid, sponsor_code := sponsor, step1_confirmed := false,
    step2_warning_ack := false, progress_step := 0,
    visited_sharing := false, shared_invite := false,
    visited_member_tools := false }

/-- upsert_user (bot.py:328): inserts a new row for an unknown identity;
for a known identity, writes the sponsor edge only when the supplied code
is truthy and the stored edge is falsy (first-write-wins). -/
def upsert_user (s : Store) (uid : Nat) (sponsor : Option String) : Store :=
  match findUser s uid with
  | none =>
      { s with users := s.users ++ [freshUserRow uid sponsor] }
  | some row =>
      if pyTruthy sponsor && !pyTruthy row.sponsor_code then
        { s with users := s.users.map (fun u =>
            if u.id == uid then { u with sponsor_code := sponsor } else u) }
      else s

/-- mark_progress_action (bot.py:1049): sets one progress flag; any other
action string runs no UPDATE at all. -/
def mark_progress_action (s : Store) (uid : Nat) (action : String) : Store :=
  if action == "visited_sharing" then
    { s with users := s.users.map (fun u =>
        if u.id == uid then { u with visited_sharing := true } else u) }
  else if action == "shared_invite" then
    { s with users := s.users.map (fun u =>
        if u.id == uid then { u with shared_invite := true } else u) }
  else if action == "visited_member_tools" then
    { s with users := s.users.map (fun u =>
        if u.id == uid then { u with visited_member_tools := true } else u) }
  else s

/-- The dictionary returned by get_user_progress (bot.py:1006); a missing
row yields all zeros. -/
structure Progress where
  progress_step : Nat
  visited_sharing : Bool
  shared_invite : Bool
  visited_member_tools : Bool
deriving Repr, DecidableEq

/-- get_user_progress (bot.py:1006). -/
def get_user_progress (s : Store) (uid : Nat) : Progress :=
  match findUser s uid with
  | none => { progress_step := 0, visited_sharing := false,
              shared_invite := false, visited_member_tools := false }
  | some u => { progress_step := u.progress_step,
                visited_sharing := u.visited_sharing,
                shared_invite := u.shared_invite,
                visited_member_tools := u.visited_member_tools }

/-- has_team_member_with_links (bot.py:1110): does some user sponsored by
this owner's code itself own a referrer row (INNER JOIN on owner id)? -/
def has_team_member_with_links (s : Store) (uid : Nat) : Bool :=
  match getReferrerByOwner s uid with
  | none => false
  | some ref =>
      s.users.any (fun u =>
        u.sponsor_code == some ref.ref_code
          && s.referrers.any (fun r => r.owner_id == u.id))

/-- calculate_progress_percentage (bot.py:1065): 7 stages; owning a
referrer row auto-completes stages 1-3; `int(completed/7*100)` is floor,
equal to Nat division for 0 ≤ completed ≤ 7. -/
def calculate_progress_percentage (s : Store) (uid : Nat) : Nat :=
  let prog := get_user_progress s uid
  let has_links := (getReferrerByOwner s uid).isSome
  let has_team_member := has_team_member_with_links s uid
  let completed :=
    (if has_links then 2 else 0)
    + (if has_links then 1 else 0)
    + (if prog.visited_sharing then 1 else 0)
    + (if prog.shared_invite then 1 else 0)
    + (if prog.visited_member_tools then 1 else 0)
    + (if has_team_member then 1 else 0)
  completed * 100 / 7

/-- Result dictionary of get_user_rank (bot.py:501). When the caller owns
no referrer row the code returns a dict without a `team_size` key; we
model that absent key as 0. -/
structure RankResult where
  rank : Nat
  total : Nat
  percentile : Nat
  team_size : Nat
deriving Repr, DecidableEq

/-- SELECT COUNT(DISTINCT ref_code) FROM referrers. -/
def totalAffiliates (s : Store) : Nat :=
  ((s.referrers.map (fun r => r.ref_code)).dedup).length

/-- The GROUP BY sponsor_code groups of `users` with sponsor_code NOT
NULL: one entry per distinct non-null stored sponsor code. -/
def sponsorGroups (s : Store) : List String :=
  ((s.users.filterMap (fun u => u.sponsor_code)).dedup)

/-- get_user_rank (bot.py:501): rank = 1 + number of sponsor-code groups
in `users` whose member count exceeds this owner's team size;
`int(rank / total * 100)` truncates, i.e. Nat division here. -/
def get_user_rank (s : Store) (uid : Nat) : RankResult :=
  match getReferrerByOwner s uid with
  | none => { rank := 0, total := 0, percentile := 0, team_size := 0 }
  | some ref =>
      let t := teamSize s ref.ref_code
      let total := totalAffiliates s
      let better := ((sponsorGroups s).filter (fun g => t < teamSize s g)).length
      let rank := better + 1
      let percentile := if 0 < total then rank * 100 / total else 0
      { rank := rank, total := total, percentile := percentile, team_size := t }

/-- Insertion of a (code, size) pair into a list sorted by size
descending, modelling the SQL ORDER BY team_size DESC. -/
def insertDesc (x : String × Nat) : List (String × Nat) → List (String × Nat)
  | [] => [x]
  | y :: ys => if y.2 ≤ x.2 then x :: y :: ys else y :: insertDesc x ys

/-- Sort by team size descending (stable enough for the claims, which
depend only on lengths). -/
def sortDesc : List (String × Nat) → List (String × Nat)
  | [] => []
  | x :: xs => insertDesc x (sortDesc xs)

/-- The `all_teams` rows of get_top10_stats (bot.py:674): one row per
distinct non-null sponsor code, with its member count, ordered by count
descending. -/
def allTeams (s : Store) : List (String × Nat) :=
  sortDesc ((sponsorGroups s).map (fun g => (g, teamSize s g)))

/-- top10_count = max(1, int(len(all_teams) * 0.1)) (bot.py:698):
`int(n * 0.1)` is floor of n/10 for the forest sizes in scope. -/
def top10Count (n : Nat) : Nat := max 1 (n / 10)

/-- The `top_teams` slice actually averaged over by get_top10_stats. -/
def topTeams (s : Store) : List (String × Nat) :=
  (allTeams s).take (top10Count (allTeams s).length)

/-- SELECT COUNT(*) FROM users u INNER JOIN referrers r ON
u.telegram_user_id = r.owner_telegram_id WHERE u.sponsor_code = ?. -/
def memberCount (s : Store) (code : String) : Nat :=
  (s.users.filter (fun u =>
    u.sponsor_code == some code
      && s.referrers.any (fun r => r.owner_id == u.id))).length

/-- get_top10_stats (bot.py:674): average visitors and members over the
top `top10Count` teams. Returns (0, 0) when there are no teams. -/
def get_top10_stats (s : Store) : Nat × Nat :=
  if (allTeams s).isEmpty then (0, 0)
  else
    let top := topTeams s
    let k := top10Count (allTeams s).length
    let visitors := (top.map (fun p => p.2)).sum
    let members := (top.map (fun p => memberCount s p.1)).sum
    (visitors / k, members / k)

/-- The deep-link payload validation in `start` (bot.py:1706): strip,
uppercase, accept iff the result matches ^[A-Z0-9]\x7b4,12\x7d$. -/
def validPayload (arg : String) : Option String :=
  let c := upperString (stripString arg)
  if 4 ≤ c.length && c.length ≤ 12
      && c.data.all (fun ch => ch.isUpper || ch.isDigit) then some c
  else none

/-- The store effect of the /start handler (bot.py:1702): validate the
first deep-link argument (if any) and upsert the caller's row. No check
that the code resolves to a referrer is made. -/
def start_store (s : Store) (uid : Nat) (args : List String) : Store :=
  let sponsor : Option String :=
    match args with
    | [] => none
    | a :: _ => validPayload a
  upsert_user s uid sponsor

/-- upsert_referrer (bot.py:968): an owner who already has a referrer row
keeps its code and only the URLs are rewritten; otherwise a row with a
freshly generated code (passed here as `code`, the result of the
rejection-sampling loop) is inserted. -/
def upsert_referrer (s : Store) (owner : Nat) (u1 u2 code : String) : Store :=
  match getReferrerByOwner s owner with
  | some ex =>
      { s with referrers := s.referrers.map (fun r =>
          if r.ref_code == ex.ref_code then
            { r with step1_url := u1, step2_url := u2 } else r) }
  | none =>
      { s with referrers := s.referrers ++
          [{ ref_code := code, owner_id := owner, step1_url := u1, step2_url := u2 }] }

/-- is_in_upline (bot.py:2096), fuel-indexed: fuel = max_depth - depth + 1,
so the call with depth 0 and max_depth 20 is fuel 21 and the guard
`depth > max_depth` is fuel 0. Walks the sponsor chain upward from the
owner of `check_code`, looking for `target`. -/
def is_in_upline (s : Store) : Nat → String → Nat → Bool
  | 0, _, _ => false
  | fuel + 1, check_code, target =>
      match getReferrerByCode s check_code with
      | none => false
      | some r =>
          if r.owner_id == target then true
          else
            match findUser s r.owner_id with
            | none => false
            | some u =>
                match u.sponsor_code with
                | none => false
                | some sc =>
                    if sc.isEmpty then false
                    else is_in_upline s fuel sc target

/-- SELECT r.ref_code FROM users u JOIN referrers r ON
u.telegram_user_id = r.owner_telegram_id WHERE u.sponsor_code = ?:
the codes of the direct members of `code` that are themselves affiliates. -/
def directRefCodes (s : Store) (code : String) : List String :=
  s.users.filterMap (fun u =>
    if u.sponsor_code == some code then
      (s.referrers.find? (fun r => r.owner_id == u.id)).map (fun r => r.ref_code)
    else none)

/-- The `for ref in direct_refs` loop of count_downline, accumulating the
recursive counts and threading the shared seen set; `f` is the recursive
call at the next depth. -/
def cdList (f : List String → String → Nat × List String) :
    List String → List String → Nat × List String
  | seen, [] => (0, seen)
  | seen, c :: cs =>
      let r := f seen c
      let rest := cdList f r.2 cs
      (r.1 + rest.1, rest.2)

/-- count_downline (bot.py:2142), fuel-indexed as in `is_in_upline`
(initial fuel 21 for depth 0, max_depth 20; the guard `depth > max_depth`
is fuel 0). The Python `seen` set is a single mutable set shared across
sibling recursive calls, so it is threaded through and returned. Returns
(count, final seen). Written with `Nat.rec` so that concrete stores
evaluate inside the kernel. -/
def count_downline (s : Store) (fuel : Nat) : List String → String → Nat × List String :=
  Nat.rec (motive := fun _ => List String → String → Nat × List String)
    (fun seen _ => (0, seen))
    (fun _ ih seen code =>
      if code ∈ seen then (0, seen)
      else
        let seen1 := code :: seen
        let direct := directRefCodes s code
        let r := cdList ih seen1 direct
        (direct.length + r.1, r.2))
    fuel

/-- A downline member record of get_all_downline (bot.py:4977):
(ref_code, telegram_id, depth from the original root). -/
structure Member where
  code : String
  telegram_id : Nat
  depth : Nat
deriving Repr, DecidableEq

/-- The direct members of `code` that own a referrer row, with their ids:
SELECT u.telegram_user_id ... WHERE u.sponsor_code = ?, then a per-member
lookup in referrers. -/
def directMembers (s : Store) (code : String) : List (String × Nat) :=
  s.users.filterMap (fun u =>
    if u.sponsor_code == some code then
      (s.referrers.find? (fun r => r.owner_id == u.id)).map
        (fun r => (r.ref_code, u.id))
    else none)

/-- The `for ref_row in direct_refs` loop of get_all_downline: append the
member (if unseen) at depth + 1, splice in its recursively collected
downline (`f`, the recursive call at the next depth), and continue with
the shared seen set. -/
def gdList (f : List String → String → List Member × List String) (depth : Nat) :
    List String → List (String × Nat) → List Member × List String
  | seen, [] => ([], seen)
  | seen, m :: ms =>
      if m.1 ∈ seen then gdList f depth seen ms
      else
        let r := f seen m.1
        let rest := gdList f depth r.2 ms
        ({ code := m.1, telegram_id := m.2, depth := depth + 1 } :: (r.1 ++ rest.1),
         rest.2)

/-- get_all_downline (bot.py:4977), fuel-indexed (initial fuel 21): the
Python depth at fuel n + 1 is 20 - n; a code already in the shared seen
set is not expanded again and not listed twice. Returns (members, final
seen). Written with `Nat.rec` so that concrete stores evaluate inside
the kernel. -/
def get_all_downline (s : Store) (fuel : Nat) : List String → String → List Member × List String :=
  Nat.rec (motive := fun _ => List String → String → List Member × List String)
    (fun seen _ => ([], seen))
    (fun n ih seen code =>
      if code ∈ seen then ([], seen)
      else
        let seen1 := code :: seen
        gdList ih (20 - n) seen1 (directMembers s code))
    fuel

/-- The confirmation test of /moveuser (bot.py:2252):
`len(context.args) == 3 and context.args[2].upper() == "CONFIRM"`,
expressed on the argument tail after the two codes. -/
def confirmArg : List String → Bool
  | [a2] => upperString a2 == "CONFIRM"
  | _ => false

/-- The reply of the /moveuser command, abstracted from its message text. -/
inductive MoveResult where
  | notOwner
  | invalidUsage
  | invalidUserCode
  | invalidSponsorCode
  | sameCode
  | userNotFound
  | sponsorNotFound
  | circular
  | preview (downline : Nat) (oldSponsor : Option String)
  | moved (downline : Nat) (oldSponsor : Option String)
deriving Repr, DecidableEq

/-- moveuser_cmd (bot.py:2030): owner-only two-phase sponsor
reassignment. The circular-reference guard calls
`is_in_upline(user_code, sponsor_owner_id)`, i.e. it searches the USER's
upline for the new sponsor's owner. The single UPDATE runs only when a
third argument uppercasing to CONFIRM is present. -/
def moveuser (s : Store) (isOwner : Bool) (args : List String) : MoveResult × Store :=
  match isOwner with
  | false => (.notOwner, s)
  | true =>
    match args with
    | a0 :: a1 :: rest =>
        if 1 < rest.length then (.invalidUsage, s)
        else
          let user_code := stripString (upperString a0)
          let new_code := stripString (upperString a1)
          if !(user_code.length == 6 && user_code.data.all Char.isAlphanum) then
            (.invalidUserCode, s)
          else if !(new_code.length == 6 && new_code.data.all Char.isAlphanum) then
            (.invalidSponsorCode, s)
          else if user_code == new_code then (.sameCode, s)
          else
            match getReferrerByCode s user_code with
            | none => (.userNotFound, s)
            | some userRef =>
                match getReferrerByCode s new_code with
                | none => (.sponsorNotFound, s)
                | some sponsorRef =>
                    if is_in_upline s 21 user_code sponsorRef.owner_id then
                      (.circular, s)
                    else
                      let oldSponsor :=
                        match findUser s userRef.owner_id with
                        | none => none
                        | some u => u.sponsor_code
                      let downline := (count_downline s 21 [] user_code).1
                      let confirm := confirmArg rest
                      if confirm then
                        (.moved downline oldSponsor,
                         { s with users := s.users.map (fun u =>
                             if u.id == userRef.owner_id then
                               { u with sponsor_code := some new_code } else u) })
                      else
                        (.preview downline oldSponsor, s)
    | _ => (.invalidUsage, s)

/-! ### Concrete stores used in counterexamples and witnesses, built by
running the program's own operations from the empty database. -/

/-- One registered affiliate with an empty team, and one participant whose
deep-link carried a well-formed code that resolves to no affiliate. -/
def storeDangling : Store :=
  upsert_referrer (start_store Store.empty 20 ["zzzz"]) 10 "u1" "u2" "XXXXXX"

/-- Three registered affiliates; a fourth participant joined through the
second affiliate's deep-link, so exactly one affiliate has a team. -/
def storeThree : Store :=
  upsert_referrer
    (upsert_referrer
      (upsert_referrer (start_store Store.empty 4 ["yyyyyy"]) 1 "a" "b" "XXXXXX")
      2 "a" "b" "YYYYYY")
    3 "a" "b" "ZZZZZZ"

/-- Eleven participants who each joined through a distinct deep-link code:
eleven sponsor-code groups of one member each. -/
def storeEleven : Store :=
  (List.range 11).foldl
    (fun st i => start_store st (100 + i) ["AAA" ++ toString (i + 1)])
    Store.empty

/-- Affiliate 1 (code AAAAAA) sponsors affiliate 2 (code BBBBBB): a
two-node chain built by /start with the deep link and affiliate
registration. -/
def storeChain : Store :=
  upsert_referrer
    (start_store
      (upsert_referrer (start_store Store.empty 1 []) 1 "a" "b" "AAAAAA")
      2 ["AAAAAA"])
    2 "a" "b" "BBBBBB"

/-- The two-node chain plus an unrelated third affiliate (code CCCCCC). -/
def storeChainPlus : Store :=
  upsert_referrer (start_store storeChain 3 []) 3 "a" "b" "CCCCCC"

/-- A store whose sponsor edges form the cycle AAAAAA -> BBBBBB -> AAAAAA.
It arises from the chain store by the confirmed /moveuser AAAAAA BBBBBB,
whose reversed circular-reference check fails to reject the move. -/
def storeCycle : Store :=
  (moveuser storeChain true ["AAAAAA", "BBBBBB", "CONFIRM"]).2

/-! ### Helper lemmas about the store operations -/

theorem find?_map_pres {α : Type} (f : α → α) (p : α → Bool)
    (hp : ∀ x, p (f x) = p x) (l : List α) :
    (l.map f).find? p = (l.find? p).map f := by
  rw [List.find?_map]
  have hfun : (p ∘ f) = p := by
    funext x
    simp [Function.comp, hp]
  rw [hfun]

theorem findUser_map (s : Store) (f : UserRow → UserRow)
    (hid : ∀ u, (f u).id = u.id) (uid : Nat) :
    findUser { s with users := s.users.map f } uid = (findUser s uid).map f := by
  unfold findUser
  exact find?_map_pres f _ (fun u => by simp [hid]) s.users

theorem getReferrerByOwner_map (s : Store) (g : RefRow → RefRow)
    (hown : ∀ r, (g r).owner_id = r.owner_id) (uid : Nat) :
    getReferrerByOwner { s with referrers := s.referrers.map g } uid
      = (getReferrerByOwner s uid).map g := by
  unfold getReferrerByOwner
  exact find?_map_pres g _ (fun r => by simp [hown]) s.referrers

theorem getReferrerByOwner_append (s : Store) (new : RefRow) (uid : Nat) :
    getReferrerByOwner { s with referrers := s.referrers ++ [new] } uid
      = (getReferrerByOwner s uid).or
          (if new.owner_id == uid then some new else none) := by
  unfold getReferrerByOwner
  rw [List.find?_append]
  cases h : (new.owner_id == uid) <;> simp [List.find?, h]

theorem findUser_append_new (s : Store) (row : UserRow) (uid : Nat) :
    findUser { s with users := s.users ++ [row] } uid
      = ((findUser s uid).or (if row.id == uid then some row else none)) := by
  unfold findUser
  rw [List.find?_append]
  cases h : (row.id == uid) <;> simp [List.find?, h]

theorem findUser_some_id (s : Store) (uid : Nat) (row : UserRow)
    (h : findUser s uid = some row) : row.id = uid := by
  unfold findUser at h
  simpa using List.find?_some h

theorem pyTruthy_some_ne (c : String) (hc : c ≠ "") : pyTruthy (some c) = true := by
  simp [pyTruthy, hc]

/-- First-write-wins core fact: a truthy stored edge is never overwritten. -/
theorem upsert_user_truthy_noop (s : Store) (uid : Nat) (row : UserRow)
    (h : findUser s uid = some row) (ht : pyTruthy row.sponsor_code = true)
    (sp : Option String) : upsert_user s uid sp = s := by
  unfold upsert_user
  rw [h]
  simp [ht]

/-- A falsy supplied code never writes on an existing row. -/
theorem upsert_user_falsy_arg_noop (s : Store) (uid : Nat) (row : UserRow)
    (h : findUser s uid = some row) (sp : Option String)
    (hsp : pyTruthy sp = false) : upsert_user s uid sp = s := by
  unfold upsert_user
  rw [h]
  simp [hsp]

/-- The insert branch of upsert_user, observed through lookups. -/
theorem upsert_user_insert (s : Store) (uid : Nat)
    (h : findUser s uid = none) (sp : Option String) :
    (upsert_user s uid sp).referrers = s.referrers
      ∧ findUser (upsert_user s uid sp) uid = some (freshUserRow uid sp)
      ∧ ∀ uid2, uid2 ≠ uid → findUser (upsert_user s uid sp) uid2 = findUser s uid2 := by
  unfold upsert_user
  rw [h]
  refine ⟨rfl, ?_, ?_⟩
  · rw [findUser_append_new, h]
    simp [freshUserRow]
  · intro uid2 hne
    rw [findUser_append_new]
    have : ((freshUserRow uid sp).id == uid2) = false := by
      simp [freshUserRow]
      exact fun hh => absurd hh.symm hne
    rw [this]
    cases findUser s uid2 <;> rfl

/-- The update branch of upsert_user, observed through lookups. -/
theorem upsert_user_update (s : Store) (uid : Nat) (row : UserRow) (c : String)
    (h : findUser s uid = some row) (hf : pyTruthy row.sponsor_code = false)
    (hc : c ≠ "") :
    (upsert_user s uid (some c)).referrers = s.referrers
      ∧ findUser (upsert_user s uid (some c)) uid
          = some { row with sponsor_code := some c }
      ∧ ∀ uid2, uid2 ≠ uid →
          findUser (upsert_user s uid (some c)) uid2 = findUser s uid2 := by
  have ht : pyTruthy (some c) = true := pyTruthy_some_ne c hc
  have hid : ∀ u : UserRow,
      ((fun u => if u.id == uid then { u with sponsor_code := some c } else u) u).id
        = u.id := by
    intro u
    by_cases hu : u.id == uid <;> simp [hu]
  have hstore : upsert_user s uid (some c)
      = { s with users := s.users.map (fun u =>
          if u.id == uid then { u with sponsor_code := some c } else u) } := by
    unfold upsert_user
    rw [h]
    simp [ht, hf]
  rw [hstore]
  refine ⟨rfl, ?_, ?_⟩
  · rw [findUser_map _ _ hid, h]
    have hrow : row.id = uid := findUser_some_id s uid row h
    simp [hrow]
  · intro uid2 hne
    rw [findUser_map _ _ hid]
    cases h2 : findUser s uid2 with
    | none => rfl
    | some r =>
        have hr : r.id = uid2 := findUser_some_id s uid2 r h2
        have hcond : ¬ ((r.id == uid) = true) := by
          simp only [beq_iff_eq]
          rw [hr]
          exact hne
        simp only [Option.map_some', if_neg hcond]

theorem validPayload_some (arg c : String) (h : validPayload arg = some c) :
    c = upperString (stripString arg) ∧ c ≠ "" := by
  unfold validPayload at h
  dsimp only at h
  split at h
  next hcond =>
    cases h
    refine ⟨rfl, ?_⟩
    intro he
    simp only [Bool.and_eq_true, decide_eq_true_eq] at hcond
    have h4 : 4 ≤ (upperString (stripString arg)).length := hcond.1.1
    rw [he] at h4
    exact absurd h4 (by decide)
  next => exact absurd h (by simp)

/-! ### Claim theorems -/

/-- C9: mark_progress_action with any action string other than the three
recognised flags runs no UPDATE and leaves the store unchanged; in
particular the stage-1/stage-2 confirmation handlers pass
"step1_confirmed" and "step2_confirmed", which are never persisted. -/
theorem C9_unknown_action_is_silent_noop :
    (∀ (s : Store) (uid : Nat) (a : String),
        a ≠ "visited_sharing" → a ≠ "shared_invite" → a ≠ "visited_member_tools" →
        mark_progress_action s uid a = s)
    ∧ (∀ (s : Store) (uid : Nat),
        mark_progress_action s uid "step1_confirmed" = s
          ∧ mark_progress_action s uid "step2_confirmed" = s) := by
  constructor
  · intro s uid a h1 h2 h3
    simp [mark_progress_action, h1, h2, h3]
  · intro s uid
    constructor <;> rfl

/-- C9 witness: a concrete silent no-op through the theorem. -/
theorem C9_unknown_action_witness :
    mark_progress_action Store.empty 7 "step1_confirmed" = Store.empty :=
  C9_unknown_action_is_silent_noop.1 Store.empty 7 "step1_confirmed"
    (by decide) (by decide) (by decide)

/-- C3: recordSponsorship (upsert_user) is first-write-wins: a stored
non-null (hence non-empty) edge is never changed by any later call; for
an identity with no row, a row holding the supplied code is created and
nothing else changes; for an identity with an unset edge, the supplied
non-null code is written into that single field and nothing else changes. -/
theorem C3_recordSponsorship_first_write_wins :
    ∀ (s : Store) (uid : Nat),
      (∀ (row : UserRow) (c : String) (sp : Option String),
          findUser s uid = some row → row.sponsor_code = some c → c ≠ "" →
          upsert_user s uid sp = s)
      ∧ (findUser s uid = none → ∀ sp : Option String,
          (upsert_user s uid sp).referrers = s.referrers
            ∧ findUser (upsert_user s uid sp) uid = some (freshUserRow uid sp)
            ∧ ∀ uid2, uid2 ≠ uid →
                findUser (upsert_user s uid sp) uid2 = findUser s uid2)
      ∧ (∀ (row : UserRow) (c : String),
          findUser s uid = some row → row.sponsor_code = none → c ≠ "" →
          (upsert_user s uid (some c)).referrers = s.referrers
            ∧ findUser (upsert_user s uid (some c)) uid
                = some { row with sponsor_code := some c }
            ∧ ∀ uid2, uid2 ≠ uid →
                findUser (upsert_user s uid (some c)) uid2 = findUser s uid2) := by
  intro s uid
  refine ⟨?_, ?_, ?_⟩
  · intro row c sp h hsc hc
    exact upsert_user_truthy_noop s uid row h (hsc ▸ pyTruthy_some_ne c hc) sp
  · intro h sp
    exact upsert_user_insert s uid h sp
  · intro row c h hsc hc
    exact upsert_user_update s uid row c h (by rw [hsc]; rfl) hc

/-- C3 witness: a second call with a different sponsor does not change a
set edge, at a concrete store. -/
theorem C3_recordSponsorship_witness :
    upsert_user
      { users := [freshUserRow 1 (some "AAAAAA")], referrers := [] }
      1 (some "BBBBBB")
      = { users := [freshUserRow 1 (some "AAAAAA")], referrers := [] } :=
  (C3_recordSponsorship_first_write_wins
      { users := [freshUserRow 1 (some "AAAAAA")], referrers := [] } 1).1
    (freshUserRow 1 (some "AAAAAA")) "AAAAAA" (some "BBBBBB")
    (by decide) rfl (by decide)

/-- C10 counterexample: the claim's "stored if and only if the uppercased
form matches the code pattern" fails on an identity whose edge is already
set: the payload bbbb uppercases to the valid code BBBB, yet the stored
edge (AAAA, set by an earlier deep link) is not replaced. -/
theorem C10_counterexample_existing_edge :
    validPayload "bbbb" = some "BBBB"
    ∧ start_store (start_store Store.empty 1 ["aaaa"]) 1 ["bbbb"]
        = start_store Store.empty 1 ["aaaa"]
    ∧ findUser (start_store Store.empty 1 ["aaaa"]) 1
        = some (freshUserRow 1 (some "AAAA")) := by
  refine ⟨by decide, by decide, by decide⟩

/-- C10 amended: the payload is validated as uppercase-then-regex with no
resolution check, and it is stored subject to first-write-wins: a fresh
identity stores exactly the validated payload (absent when the pattern
fails), an identity with a set (truthy) edge is left unchanged, an
identity with an unset edge stores the validated payload when present;
dangling codes that resolve to no affiliate are storable. -/
theorem C10_payload_validation_first_write_wins :
    (∀ (s : Store) (uid : Nat) (arg : String) (rest : List String),
      (findUser s uid = none →
          findUser (start_store s uid (arg :: rest)) uid
            = some (freshUserRow uid (validPayload arg)))
      ∧ (∀ (row : UserRow) (c : String),
          findUser s uid = some row → row.sponsor_code = some c → c ≠ "" →
          start_store s uid (arg :: rest) = s)
      ∧ (∀ row : UserRow,
          findUser s uid = some row → pyTruthy row.sponsor_code = false →
          findUser (start_store s uid (arg :: rest)) uid
            = some (match validPayload arg with
                    | some c => { row with sponsor_code := some c }
                    | none => row)))
    ∧ (findUser (start_store Store.empty 20 ["zzzz"]) 20
        = some (freshUserRow 20 (some "ZZZZ"))
      ∧ getReferrerByCode (start_store Store.empty 20 ["zzzz"]) "ZZZZ" = none) := by
  constructor
  · intro s uid arg rest
    have hss : start_store s uid (arg :: rest) = upsert_user s uid (validPayload arg) := rfl
    refine ⟨?_, ?_, ?_⟩
    · intro h
      rw [hss]
      exact (upsert_user_insert s uid h (validPayload arg)).2.1
    · intro row c h hsc hc
      rw [hss]
      exact upsert_user_truthy_noop s uid row h (hsc ▸ pyTruthy_some_ne c hc) _
    · intro row h hfalsy
      rw [hss]
      cases hv : validPayload arg with
      | none =>
          rw [upsert_user_falsy_arg_noop s uid row h none rfl]
          exact h
      | some c =>
          have hc : c ≠ "" := (validPayload_some arg c hv).2
          exact (upsert_user_update s uid row c h hfalsy hc).2.1
  · exact ⟨by decide, by decide⟩

/-- C10 witness: a fresh identity stores exactly the validated payload. -/
theorem C10_payload_validation_witness :
    findUser (start_store Store.empty 5 ["abcd"] ) 5
      = some (freshUserRow 5 (some "ABCD")) :=
  (C10_payload_validation_first_write_wins.1 Store.empty 5 "abcd" []).1 (by decide)

/-- C5 counterexample: in the three-affiliate store the code computes
percentile 66 by truncation where round(rank / total * 100) =
round(200/3) = 67: the claimed rounding-to-nearest does not hold. -/
theorem C5_counterexample_truncation :
    (get_user_rank storeThree 1).rank = 2
    ∧ (get_user_rank storeThree 1).total = 3
    ∧ (get_user_rank storeThree 1).percentile = 66
    ∧ round (((get_user_rank storeThree 1).rank : ℚ)
        / ((get_user_rank storeThree 1).total : ℚ) * 100) = 67
    ∧ (66 : ℕ) ≠ 67 := by
  refine ⟨by decide, by decide, by decide, ?_, by decide⟩
  have h1 : (get_user_rank storeThree 1).rank = 2 := by decide
  have h2 : (get_user_rank storeThree 1).total = 3 := by decide
  rw [h1, h2]
  norm_num [round_eq]

/-- C5 amended: the percentile the code returns is the truncation (floor)
of rank / totalNodes * 100, not the nearest-integer rounding. -/
theorem C5_percentile_is_floor :
    ∀ (s : Store) (uid : Nat),
      (get_user_rank s uid).percentile
        = ⌊((get_user_rank s uid).rank : ℚ)
            / ((get_user_rank s uid).total : ℚ) * 100⌋₊ := by
  intro s uid
  unfold get_user_rank
  cases h : getReferrerByOwner s uid with
  | none => simp
  | some ref =>
      dsimp only
      by_cases htot : 0 < totalAffiliates s
      · rw [if_pos htot]
        rw [div_mul_eq_mul_div]
        have hcast : ((((sponsorGroups s).filter
              (fun g => teamSize s ref.ref_code < teamSize s g)).length + 1 : ℕ) : ℚ) * 100
            = (((((sponsorGroups s).filter
              (fun g => teamSize s ref.ref_code < teamSize s g)).length + 1) * 100 : ℕ) : ℚ) := by
          push_cast
          ring
        rw [hcast, Nat.floor_div_nat, Nat.floor_natCast]
      · rw [if_neg htot]
        have h0 : totalAffiliates s = 0 := Nat.eq_zero_of_not_pos htot
        rw [h0]
        simp

/-- C6 counterexample: with eleven one-member teams the code averages over
max(1, floor(11/10)) = 1 team, not the claimed ceiling ⌈11/10⌉ = 2. -/
theorem C6_counterexample_eleven_teams :
    (allTeams storeEleven).length = 11
    ∧ (topTeams storeEleven).length = 1
    ∧ ⌈((11 : ℕ) : ℚ) / 10⌉₊ = 2
    ∧ (1 : ℕ) ≠ 2 := by
  refine ⟨by decide, by decide, ?_, by decide⟩
  rw [show (((11 : ℕ) : ℚ)) = (11 : ℚ) by norm_num]
  norm_num [Nat.ceil_eq_iff]

/-- C6 amended: for a non-empty team list the top-decile average is taken
over max(1, ⌊10% of teams⌋) teams -- the floor of one tenth (with a
minimum of one), not the ceiling. -/
theorem C6_top_decile_is_floor :
    ∀ s : Store, allTeams s ≠ [] →
      (topTeams s).length
        = max 1 ⌊(((allTeams s).length : ℕ) : ℚ) / 10⌋₊ := by
  intro s h
  have h1 : 1 ≤ (allTeams s).length := List.length_pos.mpr h
  have hle : top10Count (allTeams s).length ≤ (allTeams s).length := by
    unfold top10Count
    exact max_le h1 (Nat.div_le_self _ _)
  unfold topTeams
  rw [List.length_take, min_eq_left hle]
  unfold top10Count
  rw [show ((10 : ℚ)) = (((10 : ℕ)) : ℚ) by norm_num]
  rw [Nat.floor_div_nat, Nat.floor_natCast]

/-- C6 witness: the amended count at the eleven-team store. -/
theorem C6_top_decile_witness :
    (topTeams storeEleven).length
      = max 1 ⌊(((allTeams storeEleven).length : ℕ) : ℚ) / 10⌋₊ :=
  C6_top_decile_is_floor storeEleven (by decide)

/-- C1: the circular-reference validation is reversed in the code. On the
two-node chain, BBBBBB's owner (identity 2) is in AAAAAA's downline, yet
`is_in_upline(user_code, sponsor_owner)` -- which searches AAAAAA's
UPLINE -- returns false, so the confirmed reassignment is NOT rejected:
it reports success and writes the edge, leaving the stored graph with the
cycle AAAAAA -> BBBBBB -> AAAAAA. This contradicts the code's own comment
("Check if new sponsor is in user's downline") and error message. -/
theorem C1_cycle_check_reversed_creates_cycle :
    ((get_all_downline storeChain 21 [] "AAAAAA").1.map (fun m => m.telegram_id)) = [2]
    ∧ getReferrerByCode storeChain "BBBBBB"
        = some { ref_code := "BBBBBB", owner_id := 2, step1_url := "a", step2_url := "b" }
    ∧ is_in_upline storeChain 21 "AAAAAA" 2 = false
    ∧ (moveuser storeChain true ["AAAAAA", "BBBBBB", "CONFIRM"]).1
        = MoveResult.moved 1 none
    ∧ findUser storeCycle 1 = some (freshUserRow 1 (some "BBBBBB"))
    ∧ findUser storeCycle 2 = some (freshUserRow 2 (some "AAAAAA")) := by
  refine ⟨by decide, by decide, by decide, by decide, by decide, by decide⟩

/-- C4 counterexample: in the reachable store with one registered
affiliate (XXXXXX, empty team) and one participant whose stored sponsor
code ZZZZ resolves to no affiliate, the rank computation counts the
dangling code as a competitor: rank = 2 > 1 = totalNodes. -/
theorem C4_counterexample_dangling_code :
    getReferrerByOwner storeDangling 10
        = some { ref_code := "XXXXXX", owner_id := 10, step1_url := "u1", step2_url := "u2" }
    ∧ (get_user_rank storeDangling 10).rank = 2
    ∧ (get_user_rank storeDangling 10).total = 1
    ∧ ¬((get_user_rank storeDangling 10).rank ≤ (get_user_rank storeDangling 10).total) := by
  refine ⟨by decide, by decide, by decide, by decide⟩

/-- C4 amended: rank ≥ 1 holds unconditionally; the upper bound
rank ≤ totalNodes holds provided every stored non-null sponsor code
resolves to a registered affiliate (otherwise dangling codes are counted
as competitors and the bound can fail). -/
theorem C4_rank_bounds :
    ∀ (s : Store) (uid : Nat) (ref : RefRow),
      getReferrerByOwner s uid = some ref →
      (∀ u ∈ s.users, ∀ c : String, u.sponsor_code = some c →
          c ∈ s.referrers.map (fun r => r.ref_code)) →
      1 ≤ (get_user_rank s uid).rank
        ∧ (get_user_rank s uid).rank ≤ (get_user_rank s uid).total := by
  intro s uid ref h hres
  unfold get_user_rank
  rw [h]
  dsimp only
  refine ⟨Nat.succ_le_succ (Nat.zero_le _), ?_⟩
  set t := teamSize s ref.ref_code with ht
  set R : List String := s.referrers.map (fun r => r.ref_code) with hR
  set G : List String := (sponsorGroups s).filter (fun g => t < teamSize s g) with hG
  have hGnodup : G.Nodup := (List.nodup_dedup _).filter _
  have hGsub : G.toFinset ⊆ R.toFinset := by
    intro g hg
    rw [List.mem_toFinset] at hg ⊢
    have hg1 : g ∈ sponsorGroups s := List.mem_of_mem_filter hg
    unfold sponsorGroups at hg1
    rw [List.mem_dedup, List.mem_filterMap] at hg1
    obtain ⟨u, hu, hsc⟩ := hg1
    exact hres u hu g hsc
  have hrefR : ref.ref_code ∈ R.toFinset := by
    rw [List.mem_toFinset, hR, List.mem_map]
    refine ⟨ref, ?_, rfl⟩
    exact List.mem_of_find?_eq_some h
  have hrefG : ref.ref_code ∉ G.toFinset := by
    rw [List.mem_toFinset, hG]
    intro hmem
    have := List.of_mem_filter hmem
    simp at this
  have hcard : G.toFinset.card < R.toFinset.card := by
    refine Finset.card_lt_card ⟨hGsub, ?_⟩
    intro hsup
    exact hrefG (hsup hrefR)
  have hlenG : G.length = G.toFinset.card := (List.toFinset_card_of_nodup hGnodup).symm
  have hlenR : totalAffiliates s = R.toFinset.card := by
    unfold totalAffiliates
    rw [hR, List.card_toFinset]
  rw [← hlenG, ← hlenR] at hcard
  exact hcard

/-- C4 witness: the amended bounds at the three-affiliate store, where
every stored sponsor code resolves. -/
theorem C4_rank_bounds_witness :
    1 ≤ (get_user_rank storeThree 1).rank
      ∧ (get_user_rank storeThree 1).rank ≤ (get_user_rank storeThree 1).total :=
  C4_rank_bounds storeThree 1
    { ref_code := "XXXXXX", owner_id := 1, step1_url := "a", step2_url := "b" }
    (by decide) (by decide)

/-! ### Visited-set lemmas for the recursive traversals -/

theorem count_downline_zero (s : Store) (seen : List String) (code : String) :
    count_downline s 0 seen code = (0, seen) := rfl

theorem count_downline_succ (s : Store) (fuel : Nat) (seen : List String) (code : String) :
    count_downline s (fuel + 1) seen code
      = if code ∈ seen then (0, seen)
        else
          let seen1 := code :: seen
          let direct := directRefCodes s code
          let r := cdList (count_downline s fuel) seen1 direct
          (direct.length + r.1, r.2) := rfl

theorem get_all_downline_zero (s : Store) (seen : List String) (code : String) :
    get_all_downline s 0 seen code = ([], seen) := rfl

theorem get_all_downline_succ (s : Store) (fuel : Nat) (seen : List String) (code : String) :
    get_all_downline s (fuel + 1) seen code
      = if code ∈ seen then ([], seen)
        else gdList (get_all_downline s fuel) (20 - fuel) (code :: seen)
              (directMembers s code) := rfl

theorem cdList_nodup (f : List String → String → Nat × List String)
    (hf : ∀ seen c, seen.Nodup → ((f seen c).2).Nodup) :
    ∀ (cs : List String) (seen : List String), seen.Nodup →
      ((cdList f seen cs).2).Nodup := by
  intro cs
  induction cs with
  | nil => intro seen h; exact h
  | cons c cs ih =>
      intro seen h
      exact ih _ (hf seen c h)

theorem count_downline_nodup (s : Store) :
    ∀ (fuel : Nat) (seen : List String) (code : String), seen.Nodup →
      ((count_downline s fuel seen code).2).Nodup := by
  intro fuel
  induction fuel with
  | zero => intro seen code h; exact h
  | succ n ih =>
      intro seen code h
      rw [count_downline_succ]
      by_cases hc : code ∈ seen
      · rw [if_pos hc]; exact h
      · rw [if_neg hc]
        exact cdList_nodup _ (fun seen' c' h' => ih seen' c' h') _ _
          (List.nodup_cons.mpr ⟨hc, h⟩)

theorem gdList_nodup (f : List String → String → List Member × List String)
    (hf : ∀ seen c, seen.Nodup → ((f seen c).2).Nodup) (depth : Nat) :
    ∀ (ms : List (String × Nat)) (seen : List String), seen.Nodup →
      ((gdList f depth seen ms).2).Nodup := by
  intro ms
  induction ms with
  | nil => intro seen h; exact h
  | cons m ms ih =>
      intro seen h
      unfold gdList
      by_cases hm : m.1 ∈ seen
      · rw [if_pos hm]; exact ih seen h
      · rw [if_neg hm]
        exact ih _ (hf seen m.1 h)

theorem get_all_downline_nodup (s : Store) :
    ∀ (fuel : Nat) (seen : List String) (code : String), seen.Nodup →
      ((get_all_downline s fuel seen code).2).Nodup := by
  intro fuel
  induction fuel with
  | zero => intro seen code h; exact h
  | succ n ih =>
      intro seen code h
      rw [get_all_downline_succ]
      by_cases hc : code ∈ seen
      · rw [if_pos hc]; exact h
      · rw [if_neg hc]
        exact gdList_nodup _ (fun seen' c' h' => ih seen' c' h') _ _ _
          (List.nodup_cons.mpr ⟨hc, h⟩)

/-- C7: both recursive traversals are total functions of the store (they
are defined by recursion on the depth fuel, mirroring the code's
`depth > max_depth` guard, so they terminate on every stored graph,
cyclic ones included); the visited set never acquires a duplicate, i.e.
no code is ever expanded a second time; at exhausted depth (past the 20
levels) nothing is expanded at all; and on the concrete cyclic store
AAAAAA -> BBBBBB -> AAAAAA both traversals return finite results instead
of looping. -/
theorem C7_traversal_cycle_safe :
    (∀ (s : Store) (fuel : Nat) (seen : List String) (code : String),
        seen.Nodup →
        ((count_downline s fuel seen code).2).Nodup
          ∧ ((get_all_downline s fuel seen code).2).Nodup)
    ∧ (∀ (s : Store) (seen : List String) (code : String),
        count_downline s 0 seen code = (0, seen)
          ∧ get_all_downline s 0 seen code = ([], seen))
    ∧ count_downline storeCycle 21 [] "AAAAAA" = (2, ["BBBBBB", "AAAAAA"])
    ∧ (get_all_downline storeCycle 21 [] "AAAAAA").1
        = [{ code := "BBBBBB", telegram_id := 2, depth := 1 }] := by
  refine ⟨?_, ?_, by decide, by decide⟩
  · intro s fuel seen code h
    exact ⟨count_downline_nodup s fuel seen code h,
           get_all_downline_nodup s fuel seen code h⟩
  · intro s seen code
    exact ⟨count_downline_zero s seen code, get_all_downline_zero s seen code⟩

/-- C7 witness: the visited sets of both traversals over the cyclic store
are duplicate-free. -/
theorem C7_traversal_witness :
    ((count_downline storeCycle 21 [] "AAAAAA").2).Nodup
      ∧ ((get_all_downline storeCycle 21 [] "AAAAAA").2).Nodup :=
  C7_traversal_cycle_safe.1 storeCycle 21 [] "AAAAAA" List.nodup_nil

/-! ### Frame lemmas for the two-phase /moveuser command -/

theorem confirmArg_eq_false (rest : List String)
    (h : ∀ a2, rest = [a2] → upperString a2 ≠ "CONFIRM") :
    confirmArg rest = false := by
  cases rest with
  | nil => rfl
  | cons a2 t2 =>
      cases t2 with
      | nil =>
          have h2 := h a2 rfl
          simp [confirmArg, h2]
      | cons _ _ => rfl

theorem moveuser_no_confirm_frame (s : Store) (own : Bool) (args : List String)
    (hnc : ∀ a0 a1 a2, args = [a0, a1, a2] → upperString a2 ≠ "CONFIRM") :
    (moveuser s own args).2 = s
      ∧ ∀ (d : Nat) (old : Option String),
          (moveuser s own args).1 ≠ MoveResult.moved d old := by
  unfold moveuser
  cases own with
  | false => exact ⟨rfl, by simp⟩
  | true =>
      cases args with
      | nil => exact ⟨rfl, by simp⟩
      | cons a0 t =>
          cases t with
          | nil => exact ⟨rfl, by simp⟩
          | cons a1 rest =>
              have hconf : confirmArg rest = false :=
                confirmArg_eq_false rest
                  (fun a2 he => hnc a0 a1 a2 (by rw [he]))
              dsimp only
              rw [hconf]
              split
              · exact ⟨rfl, by simp⟩
              · split
                · exact ⟨rfl, by simp⟩
                · split
                  · exact ⟨rfl, by simp⟩
                  · split
                    · exact ⟨rfl, by simp⟩
                    · split
                      · exact ⟨rfl, by simp⟩
                      · split
                        · exact ⟨rfl, by simp⟩
                        · split
                          · exact ⟨rfl, by simp⟩
                          · simp

theorem moveuser_preview_result (s : Store) (a0 a1 : String) (rest : List String)
    (hrest : rest = [] ∨ ∃ a2, rest = [a2] ∧ upperString a2 ≠ "CONFIRM")
    (ur sr : RefRow)
    (h6a : ((stripString (upperString a0)).length == 6
        && (stripString (upperString a0)).data.all Char.isAlphanum) = true)
    (h6b : ((stripString (upperString a1)).length == 6
        && (stripString (upperString a1)).data.all Char.isAlphanum) = true)
    (hne : (stripString (upperString a0) == stripString (upperString a1)) = false)
    (hur : getReferrerByCode s (stripString (upperString a0)) = some ur)
    (hsr : getReferrerByCode s (stripString (upperString a1)) = some sr)
    (hcirc : is_in_upline s 21 (stripString (upperString a0)) sr.owner_id = false) :
    (moveuser s true (a0 :: a1 :: rest)).1
      = MoveResult.preview (count_downline s 21 [] (stripString (upperString a0))).1
          (match findUser s ur.owner_id with
           | none => none
           | some u => u.sponsor_code) := by
  have hlen : ¬ (1 < rest.length) := by
    rcases hrest with h | ⟨a2, h, _⟩ <;> subst h <;> simp
  have hconf : confirmArg rest = false := by
    rcases hrest with h | ⟨a2, h, hne2⟩ <;> subst h
    · rfl
    · simp [confirmArg, hne2]
  unfold moveuser
  dsimp only
  rw [hconf]
  simp only [if_neg hlen, h6a, h6b, hne, hur, hsr, hcirc]
  simp

/-- C2: an invocation of /moveuser without the third CONFIRM argument
never mutates the store (every row of users and referrers is unchanged)
and never reports a move; when the validation passes (owner caller, two
well-formed distinct resolving codes, circular check false) it returns
the preview carrying the downline count and the current (before) sponsor
edge of the member being moved. -/
theorem C2_no_confirm_preview_no_mutation :
    ∀ (s : Store) (own : Bool) (args : List String),
      (∀ a0 a1 a2, args = [a0, a1, a2] → upperString a2 ≠ "CONFIRM") →
      ((moveuser s own args).2 = s
        ∧ (∀ (d : Nat) (old : Option String),
            (moveuser s own args).1 ≠ MoveResult.moved d old)
        ∧ (∀ (a0 a1 : String) (rest : List String) (ur sr : RefRow),
            args = a0 :: a1 :: rest → own = true →
            (rest = [] ∨ ∃ a2, rest = [a2]) →
            ((stripString (upperString a0)).length == 6
                && (stripString (upperString a0)).data.all Char.isAlphanum) = true →
            ((stripString (upperString a1)).length == 6
                && (stripString (upperString a1)).data.all Char.isAlphanum) = true →
            (stripString (upperString a0) == stripString (upperString a1)) = false →
            getReferrerByCode s (stripString (upperString a0)) = some ur →
            getReferrerByCode s (stripString (upperString a1)) = some sr →
            is_in_upline s 21 (stripString (upperString a0)) sr.owner_id = false →
            (moveuser s own args).1
              = MoveResult.preview
                  (count_downline s 21 [] (stripString (upperString a0))).1
                  (match findUser s ur.owner_id with
                   | none => none
                   | some u => u.sponsor_code))) := by
  intro s own args hnc
  refine ⟨(moveuser_no_confirm_frame s own args hnc).1,
          (moveuser_no_confirm_frame s own args hnc).2, ?_⟩
  intro a0 a1 rest ur sr hargs hown hrest h6a h6b hne hur hsr hcirc
  subst hargs
  subst hown
  refine moveuser_preview_result s a0 a1 rest ?_ ur sr h6a h6b hne hur hsr hcirc
  rcases hrest with h | ⟨a2, h⟩
  · exact Or.inl h
  · refine Or.inr ⟨a2, h, ?_⟩
    exact hnc a0 a1 a2 (by rw [h])

/-- C2 witness: previewing the move of BBBBBB under CCCCCC leaves the
store untouched and reports the downline count and the before-sponsor. -/
theorem C2_no_confirm_witness :
    (moveuser storeChainPlus true ["BBBBBB", "CCCCCC"]).2 = storeChainPlus
    ∧ (moveuser storeChainPlus true ["BBBBBB", "CCCCCC"]).1
        = MoveResult.preview 0 (some "AAAAAA") := by
  have h := C2_no_confirm_preview_no_mutation storeChainPlus true ["BBBBBB", "CCCCCC"]
    (by intro a0 a1 a2 hh; simp at hh)
  refine ⟨h.1, ?_⟩
  have h3 := h.2.2 "BBBBBB" "CCCCCC" []
    { ref_code := "BBBBBB", owner_id := 2, step1_url := "a", step2_url := "b" }
    { ref_code := "CCCCCC", owner_id := 3, step1_url := "a", step2_url := "b" }
    rfl rfl (Or.inl rfl) (by decide) (by decide) (by decide)
    (by decide) (by decide) (by decide)
  rw [h3]
  decide

/-! ### Monotonicity machinery for the onboarding-progress percentage -/

theorem bool_ind_le (b b2 : Bool) (k : Nat) (h : b = true → b2 = true) :
    (if b then k else 0) ≤ (if b2 then k else 0) := by
  cases b2 with
  | true => cases b <;> simp
  | false =>
      cases b with
      | false => simp
      | true => simp [h rfl]

/-- The percentage only grows when each of its six inputs (link
ownership, the three action flags, and the team fact) can only go from
false to true. -/
theorem pct_mono (s s2 : Store) (uid : Nat)
    (hlinks : (getReferrerByOwner s uid).isSome = true →
        (getReferrerByOwner s2 uid).isSome = true)
    (hvs : (get_user_progress s uid).visited_sharing = true →
        (get_user_progress s2 uid).visited_sharing = true)
    (hsi : (get_user_progress s uid).shared_invite = true →
        (get_user_progress s2 uid).shared_invite = true)
    (hvmt : (get_user_progress s uid).visited_member_tools = true →
        (get_user_progress s2 uid).visited_member_tools = true)
    (hteam : has_team_member_with_links s uid = true →
        has_team_member_with_links s2 uid = true) :
    calculate_progress_percentage s uid ≤ calculate_progress_percentage s2 uid := by
  unfold calculate_progress_percentage
  dsimp only
  apply Nat.div_le_div_right
  apply Nat.mul_le_mul_right
  exact Nat.add_le_add
    (Nat.add_le_add
      (Nat.add_le_add
        (Nat.add_le_add
          (Nat.add_le_add (bool_ind_le _ _ _ hlinks) (bool_ind_le _ _ _ hlinks))
          (bool_ind_le _ _ _ hvs))
        (bool_ind_le _ _ _ hsi))
      (bool_ind_le _ _ _ hvmt))
    (bool_ind_le _ _ _ hteam)

/-- Rewriting the users relation with a row map that keeps ids and
sponsor edges and never clears a flag cannot lower the percentage. -/
theorem pct_mono_usermap (s : Store) (uid : Nat) (f : UserRow → UserRow)
    (hid : ∀ u, (f u).id = u.id)
    (hsp : ∀ u, (f u).sponsor_code = u.sponsor_code)
    (hvs : ∀ u, u.visited_sharing = true → (f u).visited_sharing = true)
    (hsi : ∀ u, u.shared_invite = true → (f u).shared_invite = true)
    (hvmt : ∀ u, u.visited_member_tools = true → (f u).visited_member_tools = true) :
    calculate_progress_percentage s uid
      ≤ calculate_progress_percentage { s with users := s.users.map f } uid := by
  have hmap := findUser_map s f hid uid
  apply pct_mono
  · exact fun h => h
  · intro h
    unfold get_user_progress at h ⊢
    rw [hmap]
    cases hfu : findUser s uid with
    | none => rw [hfu] at h; exact absurd h (by simp)
    | some u =>
        rw [hfu] at h
        dsimp only [Option.map_some'] at h ⊢
        exact hvs u h
  · intro h
    unfold get_user_progress at h ⊢
    rw [hmap]
    cases hfu : findUser s uid with
    | none => rw [hfu] at h; exact absurd h (by simp)
    | some u =>
        rw [hfu] at h
        dsimp only [Option.map_some'] at h ⊢
        exact hsi u h
  · intro h
    unfold get_user_progress at h ⊢
    rw [hmap]
    cases hfu : findUser s uid with
    | none => rw [hfu] at h; exact absurd h (by simp)
    | some u =>
        rw [hfu] at h
        dsimp only [Option.map_some'] at h ⊢
        exact hvmt u h
  · intro h
    unfold has_team_member_with_links at h ⊢
    cases hrf : getReferrerByOwner s uid with
    | none => rw [hrf] at h; exact absurd h (by simp)
    | some ref =>
        rw [hrf] at h
        have hrf2 : getReferrerByOwner { s with users := s.users.map f } uid
            = some ref := hrf
        rw [hrf2]
        dsimp only at h ⊢
        rw [List.any_map]
        have hfun : ((fun u : UserRow => u.sponsor_code == some ref.ref_code
              && s.referrers.any (fun r => r.owner_id == u.id)) ∘ f)
            = (fun u : UserRow => u.sponsor_code == some ref.ref_code
              && s.referrers.any (fun r => r.owner_id == u.id)) := by
          funext u
          simp [Function.comp, hsp, hid]
        rw [hfun]
        exact h

/-- Appending any user row cannot lower the percentage. -/
theorem pct_mono_append (s : Store) (uid : Nat) (row : UserRow) :
    calculate_progress_percentage s uid
      ≤ calculate_progress_percentage { s with users := s.users ++ [row] } uid := by
  have happ := findUser_append_new s row uid
  apply pct_mono
  · exact fun h => h
  · intro h
    unfold get_user_progress at h ⊢
    rw [happ]
    cases hfu : findUser s uid with
    | none => rw [hfu] at h; exact absurd h (by simp)
    | some u => rw [hfu] at h; simpa using h
  · intro h
    unfold get_user_progress at h ⊢
    rw [happ]
    cases hfu : findUser s uid with
    | none => rw [hfu] at h; exact absurd h (by simp)
    | some u => rw [hfu] at h; simpa using h
  · intro h
    unfold get_user_progress at h ⊢
    rw [happ]
    cases hfu : findUser s uid with
    | none => rw [hfu] at h; exact absurd h (by simp)
    | some u => rw [hfu] at h; simpa using h
  · intro h
    unfold has_team_member_with_links at h ⊢
    cases hrf : getReferrerByOwner s uid with
    | none => rw [hrf] at h; exact absurd h (by simp)
    | some ref =>
        rw [hrf] at h
        have hrf2 : getReferrerByOwner { s with users := s.users ++ [row] } uid
            = some ref := hrf
        rw [hrf2]
        dsimp only at h ⊢
        rw [List.any_append, h]
        rfl

/-- mark_progress_action never lowers anyone's percentage. -/
theorem pct_mono_mark (s : Store) (uid uid2 : Nat) (a : String) :
    calculate_progress_percentage s uid
      ≤ calculate_progress_percentage (mark_progress_action s uid2 a) uid := by
  unfold mark_progress_action
  split
  · apply pct_mono_usermap <;> intro u <;>
      by_cases hu : (u.id == uid2) = true <;> simp [hu]
  · split
    · apply pct_mono_usermap <;> intro u <;>
        by_cases hu : (u.id == uid2) = true <;> simp [hu]
    · split
      · apply pct_mono_usermap <;> intro u <;>
          by_cases hu : (u.id == uid2) = true <;> simp [hu]
      · exact Nat.le_refl _

/-- recordSponsorship (upsert_user) never lowers anyone's percentage, on
stores whose user ids are unique (the primary key) and whose referral
codes are non-empty (guaranteed by code generation and validation). -/
theorem pct_mono_upsert (s : Store) (uid uid2 : Nat) (sp : Option String)
    (hnodup : (s.users.map (fun u => u.id)).Nodup)
    (hcodes : ∀ r ∈ s.referrers, r.ref_code ≠ "") :
    calculate_progress_percentage s uid
      ≤ calculate_progress_percentage (upsert_user s uid2 sp) uid := by
  unfold upsert_user
  cases hfu : findUser s uid2 with
  | none => exact pct_mono_append s uid (freshUserRow uid2 sp)
  | some row =>
      dsimp only
      by_cases hcond : (pyTruthy sp && !pyTruthy row.sponsor_code) = true
      · rw [if_pos hcond]
        have hid : ∀ u : UserRow,
            ((fun u => if u.id == uid2 then { u with sponsor_code := sp } else u) u).id
              = u.id := by
          intro u; by_cases hu : (u.id == uid2) = true <;> simp [hu]
        have hmap := findUser_map s _ hid uid
        apply pct_mono
        · exact fun h => h
        · intro h
          unfold get_user_progress at h ⊢
          rw [hmap]
          cases hfu2 : findUser s uid with
          | none => rw [hfu2] at h; exact absurd h (by simp)
          | some u =>
              rw [hfu2] at h
              dsimp only [Option.map_some'] at h ⊢
              by_cases hu : (u.id == uid2) = true <;> simpa [hu] using h
        · intro h
          unfold get_user_progress at h ⊢
          rw [hmap]
          cases hfu2 : findUser s uid with
          | none => rw [hfu2] at h; exact absurd h (by simp)
          | some u =>
              rw [hfu2] at h
              dsimp only [Option.map_some'] at h ⊢
              by_cases hu : (u.id == uid2) = true <;> simpa [hu] using h
        · intro h
          unfold get_user_progress at h ⊢
          rw [hmap]
          cases hfu2 : findUser s uid with
          | none => rw [hfu2] at h; exact absurd h (by simp)
          | some u =>
              rw [hfu2] at h
              dsimp only [Option.map_some'] at h ⊢
              by_cases hu : (u.id == uid2) = true <;> simpa [hu] using h
        · intro h
          unfold has_team_member_with_links at h ⊢
          cases hrf : getReferrerByOwner s uid with
          | none => rw [hrf] at h; exact absurd h (by simp)
          | some ref =>
              rw [hrf] at h
              have hrf2 : getReferrerByOwner
                  { s with users := s.users.map (fun u =>
                      if u.id == uid2 then { u with sponsor_code := sp } else u) } uid
                  = some ref := hrf
              rw [hrf2]
              dsimp only at h ⊢
              rw [List.any_eq_true] at h
              obtain ⟨u, hu_mem, hup⟩ := h
              rw [List.any_map, List.any_eq_true]
              refine ⟨u, hu_mem, ?_⟩
              simp only [Function.comp]
              by_cases hu : (u.id == uid2) = true
              · exfalso
                have hrmem : row ∈ s.users := List.mem_of_find?_eq_some hfu
                have hrid : row.id = uid2 := findUser_some_id s uid2 row hfu
                have huid : u.id = uid2 := by simpa using hu
                have hurow : u = row :=
                  List.inj_on_of_nodup_map hnodup hu_mem hrmem (by rw [huid, hrid])
                simp only [Bool.and_eq_true] at hup
                have hsp_eq : u.sponsor_code = some ref.ref_code := by
                  simpa using hup.1
                have href_mem : ref ∈ s.referrers := List.mem_of_find?_eq_some hrf
                have hrc : ref.ref_code ≠ "" := hcodes ref href_mem
                have htr : pyTruthy u.sponsor_code = true := by
                  rw [hsp_eq]; exact pyTruthy_some_ne _ hrc
                simp only [Bool.and_eq_true] at hcond
                have hfalse : pyTruthy row.sponsor_code = false := by
                  simpa using hcond.2
                rw [hurow, hfalse] at htr
                exact absurd htr (by simp)
              · simpa [hu] using hup
      · rw [if_neg hcond]

/-- registerAffiliate (upsert_referrer) never lowers anyone's percentage. -/
theorem pct_mono_register (s : Store) (uid owner : Nat) (u1 u2 code : String) :
    calculate_progress_percentage s uid
      ≤ calculate_progress_percentage (upsert_referrer s owner u1 u2 code) uid := by
  unfold upsert_referrer
  cases hex : getReferrerByOwner s owner with
  | some ex =>
      have hown : ∀ r : RefRow,
          ((fun r => if r.ref_code == ex.ref_code then
              { r with step1_url := u1, step2_url := u2 } else r) r).owner_id
            = r.owner_id := by
        intro r; by_cases hr : (r.ref_code == ex.ref_code) = true <;> simp [hr]
      have hcode : ∀ r : RefRow,
          ((fun r => if r.ref_code == ex.ref_code then
              { r with step1_url := u1, step2_url := u2 } else r) r).ref_code
            = r.ref_code := by
        intro r; by_cases hr : (r.ref_code == ex.ref_code) = true <;> simp [hr]
      have hmap := getReferrerByOwner_map s _ hown uid
      apply pct_mono
      · intro h
        rw [hmap]
        simpa using h
      · exact fun h => h
      · exact fun h => h
      · exact fun h => h
      · intro h
        unfold has_team_member_with_links at h ⊢
        cases hro : getReferrerByOwner s uid with
        | none => rw [hro] at h; exact absurd h (by simp)
        | some ref =>
            rw [hro] at h
            have hro2 : getReferrerByOwner
                { s with referrers := s.referrers.map (fun r =>
                    if r.ref_code == ex.ref_code then
                      { r with step1_url := u1, step2_url := u2 } else r) } uid
                = some ((fun r => if r.ref_code == ex.ref_code then
                    { r with step1_url := u1, step2_url := u2 } else r) ref) := by
              rw [hmap, hro]
              rfl
            rw [hro2]
            dsimp only at h ⊢
            rw [hcode ref]
            have hinner : ∀ u : UserRow,
                ((s.referrers.map (fun r => if r.ref_code == ex.ref_code then
                    { r with step1_url := u1, step2_url := u2 } else r)).any
                  (fun r => r.owner_id == u.id))
                = (s.referrers.any (fun r => r.owner_id == u.id)) := by
              intro u
              rw [List.any_map]
              congr 1
              funext r
              by_cases hr : (r.ref_code == ex.ref_code) = true <;>
                simp [Function.comp, hr]
            simp only [hinner]
            exact h
  | none =>
      have happ := getReferrerByOwner_append s
        { ref_code := code, owner_id := owner, step1_url := u1, step2_url := u2 } uid
      apply pct_mono
      · intro h
        rw [happ]
        cases hro : getReferrerByOwner s uid with
        | none => rw [hro] at h; exact absurd h (by simp)
        | some ref => simp
      · exact fun h => h
      · exact fun h => h
      · exact fun h => h
      · intro h
        unfold has_team_member_with_links at h ⊢
        cases hro : getReferrerByOwner s uid with
        | none => rw [hro] at h; exact absurd h (by simp)
        | some ref =>
            rw [hro] at h
            have hro2 : getReferrerByOwner
                { s with referrers := s.referrers ++
                    [{ ref_code := code, owner_id := owner,
                       step1_url := u1, step2_url := u2 }] } uid
                = some ref := by
              rw [happ, hro]
              rfl
            rw [hro2]
            dsimp only at h ⊢
            rw [List.any_eq_true] at h
            obtain ⟨u, hm, hp⟩ := h
            rw [List.any_eq_true]
            refine ⟨u, hm, ?_⟩
            simp only [Bool.and_eq_true] at hp ⊢
            exact ⟨hp.1, by simp [List.any_append, hp.2]⟩

/-- C8 counterexample: a confirmed sponsor reassignment CAN lower the
percentage of a fixed identity: moving BBBBBB away from AAAAAA removes
AAAAAA's only affiliate team member, dropping identity 1 from 57% to
42%. The claim's quantification over graph mutations includes sponsor
reassignments, so the claimed monotonicity fails. -/
theorem C8_counterexample_reassignment_lowers :
    calculate_progress_percentage storeChainPlus 1 = 57
    ∧ (moveuser storeChainPlus true ["BBBBBB", "CCCCCC", "CONFIRM"]).1
        = MoveResult.moved 0 (some "AAAAAA")
    ∧ calculate_progress_percentage
        (moveuser storeChainPlus true ["BBBBBB", "CCCCCC", "CONFIRM"]).2 1 = 42
    ∧ ¬ (57 : Nat) ≤ 42 := by
  refine ⟨by decide, by decide, by decide, by decide⟩

/-- C8 amended: the onboarding percentage of a fixed identity is
non-decreasing under markAction calls, sponsorship recordings
(first-write-wins upsert, on stores with unique user ids and non-empty
referral codes), and affiliate registrations -- but NOT under sponsor
reassignments, which can remove a team member and lower it. -/
theorem C8_progress_monotone_except_reassignment :
    ∀ (s : Store) (uid : Nat),
      (∀ (uid2 : Nat) (a : String),
          calculate_progress_percentage s uid
            ≤ calculate_progress_percentage (mark_progress_action s uid2 a) uid)
      ∧ ((s.users.map (fun u => u.id)).Nodup →
          (∀ r ∈ s.referrers, r.ref_code ≠ "") →
          ∀ (uid2 : Nat) (sp : Option String),
            calculate_progress_percentage s uid
              ≤ calculate_progress_percentage (upsert_user s uid2 sp) uid)
      ∧ (∀ (owner : Nat) (u1 u2 code : String),
          calculate_progress_percentage s uid
            ≤ calculate_progress_percentage (upsert_referrer s owner u1 u2 code) uid) := by
  intro s uid
  refine ⟨fun uid2 a => pct_mono_mark s uid uid2 a,
          fun hnodup hcodes uid2 sp => pct_mono_upsert s uid uid2 sp hnodup hcodes,
          fun owner u1 u2 code => pct_mono_register s uid owner u1 u2 code⟩

/-- C8 witness: recording a sponsorship on the chain store does not lower
identity 1's percentage. -/
theorem C8_progress_monotone_witness :
    calculate_progress_percentage storeChainPlus 1
      ≤ calculate_progress_percentage (upsert_user storeChainPlus 9 (some "AAAAAA")) 1 :=
  (C8_progress_monotone_except_reassignment storeChainPlus 1).2.1
    (by decide) (by decide) 9 (some "AAAAAA")

end PandoraBot
